import Mathlib

/-!
Verification of the GrowWise voice-query intent classifier
(`src/GrowWise/services/voice_service.py`, class `VoiceAssistantService`).

Python strings are modelled as lists of Unicode code points (`List Nat`);
`str.lower` is modelled on the ASCII range and `str.strip` removes ASCII
whitespace from both ends.  Substring containment (Python's infix test
`keyword in query`) is an executable scan.  The keyword table and the
response table are transcribed verbatim from the source; the dictionary
iteration order in `process_query` is the insertion order of the literal,
and Python's `max(matches, key=matches.get)` keeps the first element whose
value is maximal, which `dictMax` mirrors.
-/

namespace VoiceService

/-- A Python string, modelled as its list of Unicode code points. -/
abbrev PyStr := List Nat

/-- Helper to write `PyStr` literals from Lean string literals. -/
def ofString (s : String) : PyStr := s.toList.map Char.toNat

/-- ASCII model of Python `str.lower` on a single code point. -/
def lowerChar (c : Nat) : Nat := if 65 ≤ c ∧ c ≤ 90 then c + 32 else c

/-- Model of Python `str.lower`. -/
def pyLower (s : PyStr) : PyStr := s.map lowerChar

/-- ASCII whitespace, as stripped by Python `str.strip`. -/
def isSpaceChar (c : Nat) : Bool :=
  c == 32 || c == 9 || c == 10 || c == 11 || c == 12 || c == 13

/-- Model of Python `str.strip`: drop whitespace from both ends. -/
def pyStrip (s : PyStr) : PyStr :=
  ((s.dropWhile isSpaceChar).reverse.dropWhile isSpaceChar).reverse

/-- The normalization performed by `process_query`: `query.lower().strip()`. -/
def normalize (s : PyStr) : PyStr := pyStrip (pyLower s)

/-- `startsWith n h` holds when `n` is an initial segment of `h`. -/
def startsWith : PyStr → PyStr → Bool
  | [], _ => true
  | _ :: _, [] => false
  | a :: as, b :: bs => a == b && startsWith as bs

/-- Python's substring test `needle in hay` (contiguous containment). -/
def containsSub (needle : PyStr) : PyStr → Bool
  | [] => needle.isEmpty
  | c :: rest => startsWith needle (c :: rest) || containsSub needle rest

/-- The closed set of categories of `VoiceAssistantService`: the eight keys
of `query_patterns` plus `greeting` and `default`. -/
inductive Category where
  | weather
  | prices
  | disease
  | fertilizer
  | cultivation
  | pest
  | soil
  | season
  | greeting
  | default
  deriving DecidableEq, Fintype, Repr

/-- The trigger-substring lists of `self.query_patterns`, transcribed from
the source; `greeting` and `default` have no entry in the dictionary. -/
def patterns : Category → List PyStr
  | .weather => [ofString "weather", ofString "temperature", ofString "rain",
      ofString "climate", ofString "forecast", ofString "sunny",
      ofString "cloudy", ofString "humidity"]
  | .prices => [ofString "price", ofString "cost", ofString "market",
      ofString "sell", ofString "buy", ofString "rate",
      ofString "expensive", ofString "cheap", ofString "rupees"]
  | .disease => [ofString "disease", ofString "sick", ofString "problem",
      ofString "leaf", ofString "plant", ofString "crop",
      ofString "infection", ofString "pest", ofString "spots",
      ofString "yellow"]
  | .fertilizer => [ofString "fertilizer", ofString "nutrient",
      ofString "soil", ofString "compost", ofString "manure",
      ofString "nitrogen", ofString "phosphorus", ofString "potassium"]
  | .cultivation => [ofString "seed", ofString "planting", ofString "growing",
      ofString "cultivation", ofString "harvest", ofString "farming",
      ofString "irrigation", ofString "water"]
  | .pest => [ofString "pest", ofString "insect", ofString "bug",
      ofString "caterpillar", ofString "aphid", ofString "mite",
      ofString "larvae"]
  | .soil => [ofString "soil", ofString "ph", ofString "acidity",
      ofString "alkaline", ofString "drainage", ofString "clay",
      ofString "sand", ofString "loam"]
  | .season => [ofString "season", ofString "monsoon", ofString "winter",
      ofString "summer", ofString "sowing", ofString "timing"]
  | .greeting => []
  | .default => []

/-- Insertion order of the `query_patterns` dictionary literal, which is the
iteration order of `self.query_patterns.items()`. -/
def patternOrder : List Category :=
  [.weather, .prices, .disease, .fertilizer, .cultivation, .pest, .soil, .season]

/-- `match_count` of a category: `sum(1 for keyword in keywords if keyword
in query_lower)`. -/
def matchCount (c : Category) (ql : PyStr) : Nat :=
  (patterns c).countP (fun k => containsSub k ql)

/-- The `matches` dictionary built by `process_query`, as an insertion-ordered
association list: categories whose match count is positive. -/
def matchesList (ql : PyStr) : List (Category × Nat) :=
  patternOrder.filterMap (fun c =>
    if 0 < matchCount c ql then some (c, matchCount c ql) else none)

/-- Python's `max(matches, key=matches.get)`: fold keeping the current best,
replacing it only on a strictly larger value, so the first key attaining the
maximum wins. -/
def dictMax : Category × Nat → List (Category × Nat) → Category
  | acc, [] => acc.1
  | acc, x :: rest => if acc.2 < x.2 then dictMax x rest else dictMax acc rest

/-- The greeting substrings of `_is_greeting`. -/
def greetings : List PyStr :=
  [ofString "hello", ofString "hi", ofString "hey", ofString "good morning",
   ofString "good afternoon", ofString "good evening", ofString "namaste",
   ofString "greetings", ofString "howdy"]

/-- `_is_greeting`: the normalized query contains some greeting substring. -/
def is_greeting (ql : PyStr) : Bool :=
  greetings.any (fun g => containsSub g ql)

/-- The category selected by `process_query` (the spec's `classify`):
greeting short-circuit, else the first category with the most matches,
else `default`. -/
def classify (query : PyStr) : Category :=
  let ql := normalize query
  if is_greeting ql then .greeting
  else
    match matchesList ql with
    | [] => .default
    | p :: rest => dictMax p rest

/-- `self.responses`, transcribed verbatim from the source. -/
def responses : Category → PyStr
  | .weather => ofString "🌤️ To get current weather information, use the Weather tab. Enter your city name or allow location access to get real-time weather data including temperature, humidity, and wind speed."
  | .prices => ofString "💰 Check the Market Prices section for current rates of vegetables and fruits. You can filter by category to see specific produce prices in your area."
  | .disease => ofString "🔬 For plant disease detection, use the Disease Detection tab. Take a clear photo of the affected plant leaves and upload it for AI-powered analysis and treatment recommendations."
  | .fertilizer => ofString "🌱 For fertilizer recommendations: Use nitrogen-rich fertilizers for leafy growth, phosphorus for root development, and potassium for flowering. Consider organic compost and get soil testing for specific nutrient needs."
  | .cultivation => ofString "🚜 Cultivation tips: Choose seeds based on your local climate and soil type. Ensure proper spacing, watering schedule, and crop rotation. Consult your local agricultural extension office for region-specific advice."
  | .pest => ofString "🐛 For pest management: Use integrated pest management (IPM) approaches. Try neem oil, companion planting, and beneficial insects before chemical pesticides. Regular monitoring is key to early detection."
  | .soil => ofString "🏔️ Soil health tips: Test your soil pH (6.0-7.0 is ideal for most crops). Improve drainage with organic matter. Add compost regularly to maintain soil structure and fertility."
  | .season => ofString "📅 Seasonal farming: Plan crops according to local seasons. Monsoon is ideal for rice and sugarcane. Winter is good for wheat and vegetables. Summer crops include cotton and pulses."
  | .greeting => ofString "👋 Hello! I'm your GrowWise farming assistant. I can help you with weather information, market prices, plant disease detection, and general farming guidance. What would you like to know?"
  | .default => ofString "🌾 I'm here to help with farming! I can assist with:\n• Weather information\n• Market prices\n• Plant disease detection\n• Soil and fertilizer advice\n• Pest management\n• Cultivation tips\n\nPlease ask me something specific about farming!"

/-- `process_query`, following the branch structure of the source: it
returns the response string of the selected category. -/
def process_query (query : PyStr) : PyStr :=
  let ql := normalize query
  if is_greeting ql then responses .greeting
  else
    match matchesList ql with
    | [] => responses .default
    | p :: rest => responses (dictMax p rest)

/-- The return value of `get_help_response`. -/
structure HelpResponse where
  features : List PyStr
  sample_queries : List PyStr
  deriving DecidableEq

/-- `get_help_response`, transcribed verbatim from the source. -/
def get_help_response : HelpResponse where
  features :=
    [ofString "🌤️ Weather Information - Get current weather for any location",
     ofString "💰 Market Prices - Check latest vegetable and fruit prices",
     ofString "🔬 Disease Detection - Upload plant photos for disease diagnosis",
     ofString "🎤 Voice Assistant - Ask questions about farming",
     ofString "📊 Analytics - View usage statistics and history"]
  sample_queries :=
    [ofString "What is the weather like today?",
     ofString "Show me tomato prices",
     ofString "My plant leaves are turning yellow",
     ofString "What fertilizer should I use for corn?",
     ofString "How to manage pests in my crop?",
     ofString "What is the best soil pH for vegetables?"]

/-! ### Helper lemmas shared by the claims -/

/-- The response table is used by both branches of `process_query`, so the
returned string is always the response of the selected category. -/
lemma process_query_eq (q : PyStr) : process_query q = responses (classify q) := by
  unfold process_query classify
  by_cases hg : is_greeting (normalize q) = true
  · simp [hg]
  · simp only [Bool.not_eq_true] at hg
    cases h : matchesList (normalize q) <;> simp [hg, h]

/-- No response string is empty. -/
lemma responses_ne_nil (c : Category) : responses c ≠ [] := by
  cases c <;> decide

/-- Greeting short-circuit of `process_query`. -/
lemma classify_of_greeting {q : PyStr} (hg : is_greeting (normalize q) = true) :
    classify q = .greeting := by
  simp [classify, hg]

/-- Each keyword list of `query_patterns` has no duplicate trigger. -/
lemma patterns_nodup (c : Category) : (patterns c).Nodup := by
  cases c <;> decide

/-- Entries of the `matches` dictionary record a positive match count of a
pattern category. -/
lemma matchesList_mem {ql : PyStr} {x : Category × Nat} (h : x ∈ matchesList ql) :
    x.1 ∈ patternOrder ∧ x.2 = matchCount x.1 ql ∧ 0 < x.2 := by
  unfold matchesList at h
  rcases List.mem_filterMap.mp h with ⟨c, hc, hfc⟩
  by_cases hp : 0 < matchCount c ql
  · rw [if_pos hp] at hfc
    cases hfc
    exact ⟨hc, rfl, hp⟩
  · rw [if_neg hp] at hfc
    cases hfc

/-- A pattern category with a positive match count appears in `matches`. -/
lemma mem_matchesList_of {ql : PyStr} {c : Category} (hc : c ∈ patternOrder)
    (hp : 0 < matchCount c ql) : (c, matchCount c ql) ∈ matchesList ql := by
  unfold matchesList
  exact List.mem_filterMap.mpr ⟨c, hc, by rw [if_pos hp]⟩

/-- Python's first-maximum-wins `max`: if `(c, v)` is in the list (or is the
accumulator), every value is at most `v`, and `v` is attained only at
`(c, v)`, then the fold returns `c`. -/
lemma dictMax_eq_of {c : Category} {v : Nat} :
    ∀ (l : List (Category × Nat)) (acc : Category × Nat),
      ((c, v) ∈ l ∧ acc.2 < v ∨ acc = (c, v)) →
      (∀ x ∈ l, x.2 ≤ v ∧ (x.2 = v → x = (c, v))) →
      dictMax acc l = c := by
  intro l
  induction l with
  | nil =>
    intro acc hd _
    rcases hd with ⟨hmem, _⟩ | rfl
    · exact absurd hmem (List.not_mem_nil _)
    · rfl
  | cons x t ih =>
    intro acc hd hall
    have hx := hall x (List.mem_cons_self _ _)
    have hall' : ∀ y ∈ t, y.2 ≤ v ∧ (y.2 = v → y = (c, v)) :=
      fun y hy => hall y (List.mem_cons_of_mem _ hy)
    simp only [dictMax]
    by_cases hlt : acc.2 < x.2
    · rw [if_pos hlt]
      apply ih _ ?_ hall'
      rcases hd with ⟨hmem, _⟩ | rfl
      · by_cases hxc : x = (c, v)
        · exact Or.inr hxc
        · left
          refine ⟨?_, ?_⟩
          · rcases List.mem_cons.mp hmem with h | h
            · exact absurd h.symm hxc
            · exact h
          · rcases Nat.lt_or_ge x.2 v with h | h
            · exact h
            · exact absurd (hx.2 (Nat.le_antisymm hx.1 h)) hxc
      · exact absurd hlt (Nat.not_lt.mpr hx.1)
    · rw [if_neg hlt]
      apply ih _ ?_ hall'
      rcases hd with ⟨hmem, hacc⟩ | rfl
      · left
        refine ⟨?_, hacc⟩
        rcases List.mem_cons.mp hmem with h | h
        · exfalso
          rw [← h] at hlt
          exact hlt hacc
        · exact h
      · exact Or.inr rfl

/-- The selection step: a category whose match count strictly exceeds that
of every other pattern category is the one `process_query` picks. -/
lemma classify_of_strict_max {q : PyStr} {c : Category}
    (hg : is_greeting (normalize q) = false) (hc : c ∈ patternOrder)
    (hmax : ∀ c' ∈ patternOrder, c' ≠ c →
      matchCount c' (normalize q) < matchCount c (normalize q)) :
    classify q = c := by
  have hex : ∃ c' ∈ patternOrder, c' ≠ c := by
    rcases Decidable.eq_or_ne c .weather with rfl | h
    · exact ⟨.prices, by decide, by decide⟩
    · exact ⟨.weather, by decide, fun e => h e.symm⟩
  obtain ⟨c', hc', hne⟩ := hex
  have hpos : 0 < matchCount c (normalize q) :=
    Nat.lt_of_le_of_lt (Nat.zero_le _) (hmax c' hc' hne)
  have hmem := mem_matchesList_of hc hpos
  cases hml : matchesList (normalize q) with
  | nil =>
    rw [hml] at hmem
    exact absurd hmem (List.not_mem_nil _)
  | cons p rest =>
    have hclass : classify q = dictMax p rest := by simp [classify, hg, hml]
    rw [hclass]
    have hallx : ∀ x ∈ p :: rest,
        x.2 ≤ matchCount c (normalize q) ∧
        (x.2 = matchCount c (normalize q) → x = (c, matchCount c (normalize q))) := by
      intro x hx
      have hxm := matchesList_mem (show x ∈ matchesList (normalize q) by rw [hml]; exact hx)
      by_cases hxc : x.1 = c
      · have hxeq : x = (c, matchCount c (normalize q)) := by
          rw [← hxc, ← hxm.2.1]
        exact ⟨le_of_eq (by rw [hxeq]), fun _ => hxeq⟩
      · have hlt := hmax x.1 hxm.1 hxc
        rw [← hxm.2.1] at hlt
        exact ⟨Nat.le_of_lt hlt, fun he => absurd (he ▸ hlt) (lt_irrefl _)⟩
    apply dictMax_eq_of rest p ?_ (fun y hy => hallx y (List.mem_cons_of_mem _ hy))
    rw [hml] at hmem
    by_cases hp : p = (c, matchCount c (normalize q))
    · exact Or.inr hp
    · left
      refine ⟨?_, ?_⟩
      · rcases List.mem_cons.mp hmem with h | h
        · exact absurd h.symm hp
        · exact h
      · have hpm := matchesList_mem
          (show p ∈ matchesList (normalize q) by rw [hml]; exact List.mem_cons_self _ _)
        have hpc : p.1 ≠ c := by
          intro h1
          exact hp (by rw [← h1, ← hpm.2.1])
        have := hmax p.1 hpm.1 hpc
        rw [← hpm.2.1] at this
        exact this

/-- Unfolded form of `classify`. -/
lemma classify_def (q : PyStr) :
    classify q =
      if is_greeting (normalize q) then Category.greeting
      else
        match matchesList (normalize q) with
        | [] => Category.default
        | p :: rest => dictMax p rest := rfl

/-- `str.lower` is idempotent on a single code point. -/
lemma lowerChar_idem (c : Nat) : lowerChar (lowerChar c) = lowerChar c := by
  simp only [lowerChar]
  by_cases h : 65 ≤ c ∧ c ≤ 90
  · rw [if_pos h, if_neg (by omega)]
  · rw [if_neg h, if_neg h]

/-- A map whose function fixes every element of a list fixes the list. -/
lemma map_fix {f : Nat → Nat} (l : List Nat) (h : ∀ x ∈ l, f x = x) :
    l.map f = l := by
  calc l.map f = l.map id := List.map_congr_left h
    _ = l := List.map_id l

lemma mem_of_mem_dropWhile {p : Nat → Bool} {x : Nat} {l : List Nat}
    (h : x ∈ l.dropWhile p) : x ∈ l :=
  (List.dropWhile_sublist p).subset h

/-- Stripping only removes elements. -/
lemma mem_pyStrip {x : Nat} {l : PyStr} (h : x ∈ pyStrip l) : x ∈ l := by
  unfold pyStrip at h
  rw [List.mem_reverse] at h
  have h1 := mem_of_mem_dropWhile h
  rw [List.mem_reverse] at h1
  exact mem_of_mem_dropWhile h1

/-- `str.lower` is idempotent. -/
lemma pyLower_idem (l : PyStr) : pyLower (pyLower l) = pyLower l := by
  unfold pyLower
  rw [List.map_map]
  exact List.map_congr_left fun x _ => lowerChar_idem x

/-- Lowering fixes an already-lowered-and-stripped string. -/
lemma pyLower_pyStrip_fix (q : PyStr) :
    pyLower (pyStrip (pyLower q)) = pyStrip (pyLower q) := by
  apply map_fix
  intro x hx
  rcases List.mem_map.mp (mem_pyStrip hx) with ⟨y, _, hy⟩
  rw [← hy]
  exact lowerChar_idem y

/-- The head surviving `dropWhile` fails the predicate. -/
lemma head_dropWhile_false {p : Nat → Bool} :
    ∀ (l : List Nat) (a : Nat) (w : List Nat),
      List.dropWhile p l = a :: w → p a = false := by
  intro l
  induction l with
  | nil =>
    intro a w h
    simp at h
  | cons x t ih =>
    intro a w h
    rw [List.dropWhile_cons] at h
    by_cases hx : p x = true
    · rw [if_pos hx] at h
      exact ih a w h
    · rw [if_neg hx] at h
      cases h
      simpa using hx

/-- `dropWhile` fixes a list whose head (if any) fails the predicate. -/
lemma dropWhile_eq_self_of {p : Nat → Bool} {l : List Nat}
    (h : ∀ a w, l = a :: w → p a = false) : List.dropWhile p l = l := by
  cases l with
  | nil => rfl
  | cons a w => rw [List.dropWhile_cons, if_neg (by simp [h a w rfl])]

/-- `str.strip` is idempotent. -/
lemma pyStrip_idem (l : PyStr) : pyStrip (pyStrip l) = pyStrip l := by
  unfold pyStrip
  have hA : (((l.dropWhile isSpaceChar).reverse.dropWhile isSpaceChar).reverse).dropWhile isSpaceChar
      = ((l.dropWhile isSpaceChar).reverse.dropWhile isSpaceChar).reverse := by
    apply dropWhile_eq_self_of
    intro a w hcons
    have hsuf : ((l.dropWhile isSpaceChar).reverse.dropWhile isSpaceChar) <:+
        (l.dropWhile isSpaceChar).reverse := List.dropWhile_suffix _
    have hpre : ((l.dropWhile isSpaceChar).reverse.dropWhile isSpaceChar).reverse <+:
        l.dropWhile isSpaceChar := by
      have h2 := List.reverse_prefix.mpr hsuf
      rwa [List.reverse_reverse] at h2
    obtain ⟨t, ht⟩ := hpre
    rw [hcons] at ht
    exact head_dropWhile_false l a (w ++ t) ht.symm
  rw [hA, List.reverse_reverse]
  have hB : ((l.dropWhile isSpaceChar).reverse.dropWhile isSpaceChar).dropWhile isSpaceChar
      = (l.dropWhile isSpaceChar).reverse.dropWhile isSpaceChar := by
    apply dropWhile_eq_self_of
    intro a w hcons
    exact head_dropWhile_false _ a w hcons
  rw [hB]

/-- The normalization `lower` then `strip` is idempotent. -/
lemma normalize_idem (q : PyStr) : normalize (normalize q) = normalize q := by
  unfold normalize
  rw [pyLower_pyStrip_fix, pyStrip_idem]

/-- Lowering a code point does not change whether it is whitespace. -/
lemma isSpace_lowerChar (c : Nat) : isSpaceChar (lowerChar c) = isSpaceChar c := by
  unfold lowerChar
  by_cases h : 65 ≤ c ∧ c ≤ 90
  · rw [if_pos h]
    have h1 : isSpaceChar (c + 32) = false := by
      simp only [isSpaceChar, Bool.or_eq_false_iff, beq_eq_false_iff_ne, ne_eq]
      omega
    have h2 : isSpaceChar c = false := by
      simp only [isSpaceChar, Bool.or_eq_false_iff, beq_eq_false_iff_ne, ne_eq]
      omega
    rw [h1, h2]
  · rw [if_neg h]

/-- `lower` and `strip` commute. -/
lemma pyStrip_pyLower_comm (q : PyStr) :
    pyLower (pyStrip q) = pyStrip (pyLower q) := by
  unfold pyStrip pyLower
  have hfun : (isSpaceChar ∘ lowerChar) = isSpaceChar := funext isSpace_lowerChar
  rw [List.dropWhile_map, hfun, ← List.map_reverse, List.dropWhile_map, hfun,
    ← List.map_reverse]

/-- `startsWith` decides list prefixhood. -/
lemma startsWith_iff : ∀ n h : PyStr, startsWith n h = true ↔ n <+: h := by
  intro n
  induction n with
  | nil =>
    intro h
    simp [startsWith, List.nil_prefix]
  | cons a as ih =>
    intro h
    cases h with
    | nil => simp [startsWith]
    | cons b bs =>
      simp only [startsWith, Bool.and_eq_true, beq_iff_eq, List.cons_prefix_cons]
      exact and_congr Iff.rfl (ih bs)

/-- `containsSub` decides Python's substring containment (list infixhood). -/
lemma containsSub_iff : ∀ h n : PyStr, containsSub n h = true ↔ n <:+: h := by
  intro h
  induction h with
  | nil =>
    intro n
    simp [containsSub, List.infix_nil]
  | cons c rest ih =>
    intro n
    simp only [containsSub, Bool.or_eq_true]
    rw [List.infix_cons_iff]
    exact or_congr (startsWith_iff n (c :: rest)) (ih n)

/-- An infix made of non-whitespace code points survives a `dropWhile` of
whitespace. -/
lemma infix_dropWhile {p : Nat → Bool} {n : PyStr} (hfree : ∀ c ∈ n, p c = false) :
    ∀ {l : PyStr}, n <:+: l → n <:+: l.dropWhile p := by
  intro l
  induction l with
  | nil =>
    intro h
    rwa [List.dropWhile_nil]
  | cons x t ih =>
    intro h
    rw [List.dropWhile_cons]
    by_cases hx : p x = true
    · rw [if_pos hx]
      rcases List.infix_cons_iff.mp h with hpre | hinf
      · cases n with
        | nil => exact List.nil_infix
        | cons a as =>
          rcases List.cons_prefix_cons.mp hpre with ⟨rfl, _⟩
          exact absurd hx (by simp [hfree a (List.mem_cons_self a as)])
      · exact ih hinf
    · rw [if_neg hx]
      exact h

/-- An infix made of non-whitespace code points survives `str.strip`. -/
lemma infix_pyStrip {n : PyStr} (hfree : ∀ c ∈ n, isSpaceChar c = false)
    {l : PyStr} (h : n <:+: l) : n <:+: pyStrip l := by
  unfold pyStrip
  have h1 := infix_dropWhile hfree h
  have h2 : n.reverse <:+: (l.dropWhile isSpaceChar).reverse := h1.reverse
  have hfree' : ∀ c ∈ n.reverse, isSpaceChar c = false := fun c hc =>
    hfree c (List.mem_reverse.mp hc)
  have h3 := (infix_dropWhile hfree' h2).reverse
  rwa [List.reverse_reverse] at h3

/-- Pattern categories are exactly the categories other than `greeting` and
`default`. -/
lemma mem_patternOrder_iff : ∀ c : Category,
    (c ∈ patternOrder ↔ c ≠ .greeting ∧ c ≠ .default) := by decide

/-! ### Claims -/

/-- C1: for a greeting-free query, each non-greeting/default category's match
count equals the number of distinct triggers of that category occurring in
the normalized query, and a category whose match count strictly exceeds all
others is returned; `classify "what is the weather forecast today"` is
`weather`. -/
theorem classify_keyword_scoring_and_strict_max :
    (∀ q : PyStr, (∀ g ∈ greetings, containsSub g (normalize q) = false) →
      (∀ c : Category, c ≠ .greeting → c ≠ .default →
        matchCount c (normalize q) =
          (((patterns c).filter fun k => containsSub k (normalize q)).dedup).length) ∧
      (∀ c : Category, c ≠ .greeting → c ≠ .default →
        (∀ c' : Category, c' ≠ .greeting → c' ≠ .default → c' ≠ c →
          matchCount c' (normalize q) < matchCount c (normalize q)) →
        classify q = c)) ∧
    classify (ofString "what is the weather forecast today") = Category.weather := by
  constructor
  · intro q hno
    have hg : is_greeting (normalize q) = false := by
      unfold is_greeting
      apply List.any_eq_false.mpr
      intro x hx
      simp [hno x hx]
    constructor
    · intro c _ _
      have hnd : ((patterns c).filter fun k => containsSub k (normalize q)).Nodup :=
        (patterns_nodup c).filter _
      rw [List.dedup_eq_self.mpr hnd, matchCount, List.countP_eq_length_filter]
    · intro c hcg hcd hmax
      apply classify_of_strict_max hg ((mem_patternOrder_iff c).mpr ⟨hcg, hcd⟩)
      intro c' hc' hne
      have h1 := (mem_patternOrder_iff c').mp hc'
      exact hmax c' h1.1 h1.2 hne
  · decide

/-- C1 witness: the general statement applied to the concrete query
"weather forecast". -/
theorem classify_keyword_scoring_strict_max_witness :
    classify (ofString "weather forecast") = Category.weather :=
  (classify_keyword_scoring_and_strict_max.1 (ofString "weather forecast")
    (by decide)).2 .weather (by decide) (by decide) (by decide)

/-- C2: a query whose normalized form contains some greeting substring is
classified `greeting`, whatever other triggers it contains; in particular
`classify "hello, what fertilizer do I need"` is `greeting`. -/
theorem classify_greeting_precedence :
    (∀ q : PyStr, (∃ g ∈ greetings, containsSub g (normalize q) = true) →
      classify q = .greeting) ∧
    classify (ofString "hello, what fertilizer do I need") = Category.greeting := by
  constructor
  · intro q ⟨g, hg, hc⟩
    apply classify_of_greeting
    unfold is_greeting
    exact List.any_eq_true.mpr ⟨g, hg, hc⟩
  · decide

/-- C2 witness: the general statement applied to the concrete query
"namaste friend". -/
theorem classify_greeting_precedence_witness :
    classify (ofString "namaste friend") = Category.greeting :=
  classify_greeting_precedence.1 (ofString "namaste friend")
    ⟨ofString "namaste", by decide, by decide⟩

/-- C3: a query whose normalized form contains no greeting substring and no
trigger of any category is classified `default`; in particular
`classify "asdkjasd"` and `classify ""` are `default`. -/
theorem classify_default_fallback :
    (∀ q : PyStr, (∀ g ∈ greetings, containsSub g (normalize q) = false) →
      (∀ c : Category, ∀ k ∈ patterns c, containsSub k (normalize q) = false) →
      classify q = .default) ∧
    classify (ofString "asdkjasd") = Category.default ∧
    classify (ofString "") = Category.default := by
  refine ⟨?_, by decide, by decide⟩
  intro q hnog hnok
  have hg : is_greeting (normalize q) = false := by
    unfold is_greeting
    apply List.any_eq_false.mpr
    intro x hx
    simp [hnog x hx]
  have hz : ∀ c : Category, matchCount c (normalize q) = 0 := by
    intro c
    rw [matchCount, List.countP_eq_length_filter]
    have : (patterns c).filter (fun k => containsSub k (normalize q)) = [] := by
      rw [List.filter_eq_nil_iff]
      intro k hk
      simp [hnok c k hk]
    rw [this]
    rfl
  have hml : matchesList (normalize q) = [] := by
    simp [matchesList, patternOrder, List.filterMap_cons, hz]
  simp [classify, hg, hml]

/-- C3 witness: the general statement applied to the concrete query "qqq". -/
theorem classify_default_fallback_witness :
    classify (ofString "qqq") = Category.default :=
  classify_default_fallback.1 (ofString "qqq") (by decide) (by decide)

/-- C4: `process_query` is total — every query yields a category from the
fixed closed set and a non-empty response string. -/
theorem process_query_total (q : PyStr) :
    classify q ∈ [Category.weather, Category.prices, Category.disease,
      Category.fertilizer, Category.cultivation, Category.pest, Category.soil,
      Category.season, Category.greeting, Category.default] ∧
    process_query q ≠ [] := by
  constructor
  · cases classify q <;> decide
  · rw [process_query_eq]
    exact responses_ne_nil _

/-- C4 witness: totality at the concrete query "rain". -/
theorem process_query_total_witness :
    classify (ofString "rain") ∈ [Category.weather, Category.prices,
      Category.disease, Category.fertilizer, Category.cultivation,
      Category.pest, Category.soil, Category.season, Category.greeting,
      Category.default] ∧
    process_query (ofString "rain") ≠ [] :=
  process_query_total (ofString "rain")

/-- C5: the string returned by `process_query` is exactly the response table
entry of the classified category. -/
theorem process_query_eq_response_table (q : PyStr) :
    process_query q = responses (classify q) :=
  process_query_eq q

/-- C5 witness: the equation at the concrete query "market rate". -/
theorem process_query_eq_response_table_witness :
    process_query (ofString "market rate") =
      responses (classify (ofString "market rate")) :=
  process_query_eq_response_table (ofString "market rate")

/-- C6: classification is a pure function of the query (so two invocations
agree), and the two-way tie of "soil price" (one soil trigger, one price
trigger) deterministically resolves to `prices`, the earlier key of the
keyword table. -/
theorem classify_deterministic_tie_break :
    (∀ q : PyStr, process_query q = process_query q) ∧
    classify (ofString "soil price") = Category.prices :=
  ⟨fun _ => rfl, by decide⟩

/-- C6 witness: the idempotence component at the concrete query "soil price". -/
theorem classify_deterministic_tie_break_witness :
    process_query (ofString "soil price") = process_query (ofString "soil price") :=
  classify_deterministic_tie_break.1 (ofString "soil price")

/-- C8: `get_help_response` takes no input and is the fixed record with the
five advertised features and six sample queries. -/
theorem get_help_response_fixed :
    get_help_response = HelpResponse.mk
      [ofString "🌤️ Weather Information - Get current weather for any location",
       ofString "💰 Market Prices - Check latest vegetable and fruit prices",
       ofString "🔬 Disease Detection - Upload plant photos for disease diagnosis",
       ofString "🎤 Voice Assistant - Ask questions about farming",
       ofString "📊 Analytics - View usage statistics and history"]
      [ofString "What is the weather like today?",
       ofString "Show me tomato prices",
       ofString "My plant leaves are turning yellow",
       ofString "What fertilizer should I use for corn?",
       ofString "How to manage pests in my crop?",
       ofString "What is the best soil pH for vegetables?"] :=
  rfl

/-- C10: "pest" triggers both `disease` and `pest`, "soil" triggers both
`fertilizer` and `soil`; ties go to the earlier key of the insertion-ordered
keyword table, so the query "pest" classifies as `disease` and the query
"soil" as `fertilizer`. -/
theorem classify_shared_triggers_insertion_order :
    ofString "pest" ∈ patterns .disease ∧
    ofString "pest" ∈ patterns .pest ∧
    ofString "soil" ∈ patterns .fertilizer ∧
    ofString "soil" ∈ patterns .soil ∧
    patternOrder = [.weather, .prices, .disease, .fertilizer, .cultivation,
      .pest, .soil, .season] ∧
    classify (ofString "pest") = Category.disease ∧
    classify (ofString "soil") = Category.fertilizer := by
  refine ⟨by decide, by decide, by decide, by decide, rfl, by decide, by decide⟩

/-- C7: classification is invariant under lowercasing and trimming the
input: `classify q` equals `classify (lower (strip q))`; in particular
`classify "  WEATHER Today  "` equals `classify "weather today"`. -/
theorem classify_case_whitespace_insensitive :
    (∀ q : PyStr, classify q = classify (pyLower (pyStrip q))) ∧
    classify (ofString "  WEATHER Today  ") = classify (ofString "weather today") := by
  constructor
  · intro q
    have h : normalize (pyLower (pyStrip q)) = normalize q := by
      unfold normalize
      rw [pyLower_idem, pyStrip_pyLower_comm, pyStrip_idem]
    rw [classify_def, classify_def, h]
  · decide

/-- C7 witness: the general statement applied to the concrete query
" RAIN ". -/
theorem classify_case_whitespace_insensitive_witness :
    classify (ofString " RAIN ") = classify (pyLower (pyStrip (ofString " RAIN "))) :=
  classify_case_whitespace_insensitive.1 (ofString " RAIN ")

/-- C9: any query whose lowercased form contains "hi" anywhere — also inside
an unrelated word — is classified `greeting`; in particular
`classify "which fertilizer for paddy"` is `greeting`. -/
theorem classify_hi_substring_is_greeting :
    (∀ q : PyStr, containsSub (ofString "hi") (pyLower q) = true →
      classify q = .greeting) ∧
    classify (ofString "which fertilizer for paddy") = Category.greeting := by
  constructor
  · intro q h
    have h1 : ofString "hi" <:+: pyLower q := (containsSub_iff _ _).mp h
    have h2 : ofString "hi" <:+: normalize q := infix_pyStrip (by decide) h1
    apply classify_of_greeting
    unfold is_greeting
    exact List.any_eq_true.mpr ⟨ofString "hi", by decide, (containsSub_iff _ _).mpr h2⟩
  · decide

/-- C9 witness: the general statement applied to the concrete query
"machine learning for crop disease", whose word "machine" contains "hi". -/
theorem classify_hi_substring_is_greeting_witness :
    classify (ofString "machine learning for crop disease") = Category.greeting :=
  classify_hi_substring_is_greeting.1
    (ofString "machine learning for crop disease") (by decide)

end VoiceService
